import Mathlib

/-!
Verification development for the datastudio community-connector core:
schema registry, record transformer, pagination driver and connector
composer, shallowly embedded from the JavaScript sources
(`connectorHelper.jsx`, `main.jsx` and the unnamed helper drafts).

Conventions of the embedding:
* JavaScript objects are association lists `List (String × α)` whose
  lookup returns the value of the first matching key; an absent key
  reads as `Option.none` (the JS `undefined`).
* Code that can throw is embedded with `Except String`, the payload
  being the thrown message.  User-facing errors carry the `DS_USER:`
  marker produced by `UserError` in `main.jsx`.
* Mutable per-connector state (the dynamic-schema cache) is embedded
  by explicit state passing; invocations of external effects (the
  schema source, `UrlFetchApp.fetch`) are counted or logged so that
  call-count claims can be stated.
-/

/- ## A small model of JavaScript values -/

/-- Model of a JavaScript value, as far as the connector core inspects
one: `undefined` is the JS undefined value. Objects are association lists in
property insertion order. -/
inductive JSVal where
  | undefined : JSVal
  | str : String → JSVal
  | num : Int → JSVal
  | bool : Bool → JSVal
  | obj : List (String × JSVal) → JSVal
  | arr : List JSVal → JSVal
  deriving Repr

/-- A JavaScript object body: properties in insertion order. -/
abbrev JSObj := List (String × JSVal)

/-- First-match property lookup on an association list, `none` for an
absent property (JS reads it as `undefined`). -/
def objLookup (obj : List (String × α)) (k : String) : Option α :=
  (obj.find? (fun p => p.1 == k)).map (fun p => p.2)

/-- Property read `v[k]` on a JS value: object lookup, `undefined` when
absent or when the receiver is not an object. -/
def jsGet (v : JSVal) (k : String) : JSVal :=
  match v with
  | .obj props => (objLookup props k).getD .undefined
  | _ => .undefined

/-- JS coercion of a value to a property key, as in `container[v]`:
`undefined` stringifies to the literal key `"undefined"`. Only strings
and `undefined` reach this coercion in the embedded code. -/
def jsToPropertyKey (v : JSVal) : String :=
  match v with
  | .str s => s
  | .undefined => "undefined"
  | .num n => toString n
  | .bool b => toString b
  | .obj _ => "[object Object]"
  | .arr _ => "[array]"

/-- JS rendering of a value inside a template string. -/
def jsDisplay (v : JSVal) : String := jsToPropertyKey v

/- ## SchemaRegistry: schema shapes and keyed/unkeyed conversion
(`connectorHelper.jsx` lines 53-66) -/

/-- The `semantics` sub-object of a schema field. Absent properties are
embedded as the empty string. -/
structure Semantics where
  conceptType : String := ""
  semanticType : String := ""
  semanticGroup : String := ""
  deriving Repr, DecidableEq

/-- A schema field descriptor, per the data model: name, display
metadata and type information. -/
structure SchemaField where
  name : String
  label : String := ""
  description : String := ""
  dataType : String := ""
  semantics : Semantics := {}
  deriving Repr, DecidableEq

/-- JS object property assignment `obj[k] = v`: replaces the value in
place when the key is present, appends the property otherwise. -/
def objInsert (obj : List (String × α)) (k : String) (v : α) : List (String × α) :=
  if (obj.find? (fun p => p.1 == k)).isSome then
    obj.map (fun p => if p.1 == k then (k, v) else p)
  else
    obj ++ [(k, v)]

/-- `makeKeyedSchema_` from `connectorHelper.jsx`: builds the keyed
schema by assigning `keyedSchema[field.name] = field` for each field in
order. -/
def makeKeyedSchema_ (schema : List SchemaField) : List (String × SchemaField) :=
  schema.foldl (fun keyedSchema field => objInsert keyedSchema field.name field) []

/-- `makeUnkeyedSchema_` from `connectorHelper.jsx`: maps the keyed
schema over its keys, setting `field.name = name` from the key before
returning each field. -/
def makeUnkeyedSchema_ (keyedSchema : List (String × SchemaField)) : List SchemaField :=
  keyedSchema.map (fun p => { p.2 with name := p.1 })

/- ## SchemaRegistry: the dynamic schema cache
(`connectorHelper.jsx` lines 44-51 and 75-107) -/

/-- Connector config params as seen by the schema cache: an object
whose property values are the user-supplied strings. -/
abbrev ConfigParams := List (String × String)

/-- `badShallowCompare_` from `connectorHelper.jsx`: iterates the keys
of `lhs` and demands strict equality with the corresponding property of
`rhs`; key-set-size mismatches are deliberately ignored. -/
def badShallowCompare_ (lhs rhs : ConfigParams) : Bool :=
  lhs.all (fun p => objLookup rhs p.1 == some p.2)

/-- The pair of schema views computed by `makeSchemas_` from a schema
source result. -/
structure Schemas where
  keyedSchema : List (String × SchemaField)
  unkeyedSchema : List SchemaField
  deriving Repr, DecidableEq

/-- The mutable closure state of `makeSchemaGetters_` for a
function-valued schema source: the cached views start as JS `null`,
as does the config that produced them. `sourceCalls` instruments how
often the schema source function has been invoked. -/
structure SchemaCacheState where
  keyedSchema : Option (List (String × SchemaField)) := none
  unkeyedSchema : Option (List SchemaField) := none
  knownConfig : Option ConfigParams := none
  sourceCalls : Nat := 0
  deriving Repr, DecidableEq

/-- `refreshSchema` from `makeSchemaGetters_`: recomputes and caches
the schema views only when `knownConfig` is non-null AND the incoming
config params fail the shallow compare against it. -/
def refreshSchema (source : ConfigParams → Schemas) (st : SchemaCacheState)
    (configParams : ConfigParams) : SchemaCacheState :=
  match st.knownConfig with
  | some known =>
      if badShallowCompare_ configParams known then st
      else
        let schemas := source configParams
        { keyedSchema := some schemas.keyedSchema,
          unkeyedSchema := some schemas.unkeyedSchema,
          knownConfig := some configParams,
          sourceCalls := st.sourceCalls + 1 }
  | none => st

/-- One `getSchema`/`getKeyedSchema`/`getUnkeyedSchema` call on the
dynamic schema getters: refresh, then read the cached views (all three
getters refresh identically, so a call is represented by its config
params). Returns the new state and the unkeyed view the call reads. -/
def schemaGetterCall (source : ConfigParams → Schemas) (st : SchemaCacheState)
    (configParams : ConfigParams) : SchemaCacheState × Option (List SchemaField) :=
  let st := refreshSchema source st configParams
  (st, st.unkeyedSchema)

/-- Run a sequence of schema getter calls from the initial closure
state of `makeSchemaGetters_`, returning the final state. -/
def runSchemaCalls (source : ConfigParams → Schemas) (calls : List ConfigParams) :
    SchemaCacheState :=
  calls.foldl (fun st configParams => (schemaGetterCall source st configParams).1) {}

/- ## RecordTransformer (`connectorHelper.jsx` lines 215-290) -/

/-- The transform-relevant properties of a connector built on
`baseConnector_`: the optional name-remapping table, defaults and
per-field transformers. -/
structure TransformConnector where
  fieldMapping : Option (List (String × String)) := none
  defaultField : Option JSVal := none
  defaultFields : Option JSObj := none
  transformers : Option (List (String × (JSVal → JSVal))) := none

/-- `findField` from `baseConnector_`: when a field mapping is
configured and maps the field name to a truthy (non-empty) name, read
the raw field under the mapped key; otherwise read the raw field under
its own name. -/
def findField (conn : TransformConnector) (fieldName : String) (receivedRow : JSObj) :
    Option JSVal :=
  match conn.fieldMapping with
  | some fieldMapping =>
      match objLookup fieldMapping fieldName with
      | some mappedName =>
          if mappedName ≠ "" then objLookup receivedRow mappedName
          else objLookup receivedRow fieldName
      | none => objLookup receivedRow fieldName
  | none => objLookup receivedRow fieldName

/-- `getDefaultField` from `baseConnector_`: the per-field default
table when it defines the field, the scalar default otherwise. -/
def getDefaultField (conn : TransformConnector) (fieldName : String) : Option JSVal :=
  match conn.defaultFields with
  | some defaultFields =>
      match objLookup defaultFields fieldName with
      | some field => some field
      | none => conn.defaultField
  | none => conn.defaultField

/-- The message of the error thrown by `findFieldOrDefault` when no
resolution yields a defined value; it names the missing field. -/
def missingFieldMessage (fieldName : String) : String :=
  "Could not find field " ++ fieldName ++ " in response row. " ++
  "Ensure that the key is available in your response, or define " ++
  "one of findField/getDefaultField, or set defaultField/defaultFields."

/-- `findFieldOrDefault` from `baseConnector_`: `findField`, then
`getDefaultField`, then a thrown error naming the field. -/
def findFieldOrDefault (conn : TransformConnector) (fieldName : String)
    (receivedRow : JSObj) : Except String JSVal :=
  match findField conn fieldName receivedRow with
  | some field => .ok field
  | none =>
      match getDefaultField conn fieldName with
      | some field => .ok field
      | none => .error (missingFieldMessage fieldName)

/-- `transformField` from `baseConnector_`: apply the configured
per-field transformer when present, pass the value through unchanged
otherwise. -/
def transformField (conn : TransformConnector) (receivedField : JSVal)
    (fieldName : String) : JSVal :=
  match conn.transformers with
  | some transformers =>
      match objLookup transformers fieldName with
      | some transformer => transformer receivedField
      | none => receivedField
  | none => receivedField

/-- `transformNamedField` from `baseConnector_`: resolve the raw value,
then apply the optional transformer. -/
def transformNamedField (conn : TransformConnector) (fieldName : String)
    (receivedRow : JSObj) : Except String JSVal :=
  match findFieldOrDefault conn fieldName receivedRow with
  | .ok receivedField => .ok (transformField conn receivedField fieldName)
  | .error e => .error e

/-- `transformRow` from `baseConnector_`: map `transformNamedField`
over the requested field names in request order; a thrown resolution
error propagates out of the whole row. -/
def transformRow (conn : TransformConnector) (receivedRow : JSObj) :
    List String → Except String (List JSVal)
  | [] => .ok []
  | fieldName :: fieldNames =>
      match transformNamedField conn fieldName receivedRow with
      | .error e => .error e
      | .ok value =>
          match transformRow conn receivedRow fieldNames with
          | .error e => .error e
          | .ok values => .ok (value :: values)

/-- A raw fetched payload: either an ordered sequence of records or a
mapping of records keyed by an identifier (the two shapes
`genericMap_` iterates uniformly). -/
inductive RawPayload where
  | seq : List JSObj → RawPayload
  | keyed : List (String × JSObj) → RawPayload

/-- The records of a payload in iteration order: source order for
sequences, property insertion order for mappings. -/
def RawPayload.records : RawPayload → List JSObj
  | .seq records => records
  | .keyed records => records.map (fun p => p.2)

/-- The record-by-record part of `transformData`: map `transformRow`
over the records in iteration order; a thrown error propagates out of
the whole transform. -/
def transformRecords (conn : TransformConnector) (fieldNames : List String) :
    List JSObj → Except String (List (List JSVal))
  | [] => .ok []
  | receivedRow :: rest =>
      match transformRow conn receivedRow fieldNames with
      | .error e => .error e
      | .ok row =>
          match transformRecords conn fieldNames rest with
          | .error e => .error e
          | .ok rows => .ok (row :: rows)

/-- `transformData` from `baseConnector_`: `genericMap_` of
`transformRow` over the payload records (both payload shapes iterate
uniformly). -/
def transformData (conn : TransformConnector) (receivedData : RawPayload)
    (fieldNames : List String) : Except String (List (List JSVal)) :=
  transformRecords conn fieldNames receivedData.records

/-- One output row of `baseTransformData`: the `values` array aligned
to the requested field names. -/
structure Row where
  values : List JSVal

/-- The `rows` part of `baseTransformData` from `baseConnector_`: each
transformed row wrapped as `{values: transformedRow}`. -/
def baseTransformRows (conn : TransformConnector) (receivedData : RawPayload)
    (fieldNames : List String) : Except String (List Row) :=
  match transformData conn receivedData fieldNames with
  | .error e => .error e
  | .ok rows => .ok (rows.map Row.mk)

/- ## PaginationDriver (`main.jsx` lines 503-647, `githubStarsConnector`) -/

/-- `UserError` from `main.jsx`: the user-facing error marker
recognized by the host. -/
def userError (message : String) : String := "DS_USER:" ++ message

/-- One fetched page as the driver inspects it: `linkLast` is the last
page number encoded by the link-style response header when the pattern
`page=<N>&per_page=<M>...rel="last"` is present, `none` when the
header is absent, and `body` is the response text. -/
structure StarsPage where
  linkLast : Option Nat
  body : String
  deriving Repr, DecidableEq

/-- The external world of the stars connector: the fetch collaborator
(`none` is a thrown fetch failure), the body parser (`none` is a
thrown parse failure) and the canned sample payload. Fetching is a
pure function of the page number, matching the sequential
single-request model. -/
structure StarsEnv where
  fetch : Nat → Option StarsPage
  parse : String → Option (List JSVal)
  sampleData : List JSVal := []

/-- `numberOfPages` from `githubStarsConnector`: the last page number
from the link header of the initial response, or 1 when the header is
absent. -/
def numberOfPages (initialResponse : StarsPage) : Nat :=
  match initialResponse.linkLast with
  | some pages => pages
  | none => 1

/-- The message thrown by `fetchURL` when the fetch throws. -/
def fetchErrorMessage : String := userError "Unable to fetch data from source."

/-- The message thrown by the page loop when `JSON.parse` throws. -/
def parseErrorMessage : String := userError "Unable to parse data fetched from source."

/-- `fetchURL` from `githubStarsConnector`: fetch one page, rethrowing
a fetch failure as the user-facing fetch error. -/
def fetchURL (env : StarsEnv) (pageNumber : Nat) : Except String StarsPage :=
  match env.fetch pageNumber with
  | some response => .ok response
  | none => .error fetchErrorMessage

/-- The page loop of `githubStarsConnector.getData` over the given
page numbers: fetch each page, parse its body (a parse failure throws
the user-facing parse error), and concatenate the records.  Returns
the accumulated result together with the log of pages passed to
`fetchURL`, in call order. -/
def starsPageLoop (env : StarsEnv) :
    List Nat → List JSVal → Except String (List JSVal) × List Nat
  | [], stars => (.ok stars, [])
  | i :: rest, stars =>
      match env.fetch i with
      | none => (.error fetchErrorMessage, [i])
      | some currentResponse =>
          match env.parse currentResponse.body with
          | none => (.error parseErrorMessage, [i])
          | some currentStarData =>
              let (result, log) := starsPageLoop env rest (stars ++ currentStarData)
              (result, i :: log)

/-- The page numbers `1..totalPages` iterated by the loop. -/
def pageNumbers (totalPages : Nat) : List Nat :=
  (List.range totalPages).map (fun i => i + 1)

/-- `githubStarsConnector.getData`, star accumulation part: in sample
mode the canned payload is returned with no fetches; otherwise page 1
is fetched to learn the page count, then pages `1..totalPages` are
fetched sequentially (page 1 deliberately refetched) and their parsed
records concatenated. Returns the result together with the log of all
pages passed to `fetchURL`, in call order. -/
def starsGetData (env : StarsEnv) (sampleExtraction : Bool) :
    Except String (List JSVal) × List Nat :=
  if sampleExtraction then (.ok env.sampleData, [])
  else
    match env.fetch 1 with
    | none => (.error fetchErrorMessage, [1])
    | some initialResponse =>
        let totalPages := numberOfPages initialResponse
        let looped := starsPageLoop env (pageNumbers totalPages) []
        (looped.1, 1 :: looped.2)

/-- The parsed records of one page of the environment, read off
directly (used to state what the concatenated result must be). -/
def envPageRecords (env : StarsEnv) (i : Nat) : List JSVal :=
  match env.fetch i with
  | some page => (env.parse page.body).getD []
  | none => []

/- ## ConnectorComposer (`main.jsx` lines 41-42, 94-100, 144, 157-172,
241-299) -/

/-- `mapObjectSorted` from `main.jsx`: maps the value of each property
to an array, iterating `Object.keys(object).sort()` (property names in
sorted order) and reading each property back. -/
def mapObjectSorted (object : List (String × α)) (func : α → String → β) : List β :=
  ((object.map (fun p => p.1)).mergeSort (fun a b => a ≤ b)).filterMap
    (fun key => (objLookup object key).map (fun value => func value key))

/-- One option of a `SELECT_SINGLE` configuration parameter. -/
structure SelectOption where
  value : String
  label : String
  deriving Repr, DecidableEq

/-- One configuration parameter definition, with the properties used by
the shared configs and the synthesized selector. Absent properties are
embedded as the empty string. -/
structure ParamDef where
  type : String := ""
  name : String := ""
  displayName : String := ""
  helpText : String := ""
  placeholder : String := ""
  options : List SelectOption := []
  deriving Repr, DecidableEq

/-- The host-facing result of `getConfig`. -/
structure ConfigResult where
  configParams : List ParamDef
  dateRangeRequired : Bool := false
  deriving Repr, DecidableEq

/-- A host request: config params (string-valued properties) and the
requested fields. -/
structure Request where
  configParams : List (String × String)
  fields : List String := []

/-- The request object as the JS value it is: an object whose own
properties are `configParams` and `fields` (this matters because
`combineConnectors` indexes the request itself in its validation
path). -/
def requestAsVal (request : Request) : JSVal :=
  .obj [("configParams", .obj (request.configParams.map (fun p => (p.1, .str p.2)))),
        ("fields", .arr (request.fields.map (fun name => .obj [("name", .str name)])))]

/-- A subconnector as `combineConnectors` consumes it: schema and data
methods plus the human-readable label. Results are abstract JS
values. -/
structure SubConnector where
  label : String
  getSchema : Request → JSVal
  getData : Request → JSVal

/-- The arguments of `combineConnectors`: the shared config function,
the keyed subconnector mapping, and the optional config validator
(which throws to reject; it receives whatever value the caller of
`validateFullConfig` passes). -/
structure CombineArgs where
  getConfig : Request → ConfigResult
  connectors : List (String × SubConnector)
  validateConfig : Option (JSVal → Except String Unit) := none

/-- The reserved dispatch key of `combineConnectors`. -/
def connectorOptionKey : String := "combineConnectors__connectorSelection"

/-- `connectorOptionDef` from `combineConnectors`: the synthesized
single-select "Data Type" parameter whose options are value/label pairs
for every subconnector, in sorted key order. -/
def connectorOptionDef (args : CombineArgs) : ParamDef :=
  { type := "SELECT_SINGLE",
    name := connectorOptionKey,
    displayName := "Data Type",
    helpText := "Select the type of data you want.",
    options := mapObjectSorted args.connectors
      (fun connector connectorKey => { value := connectorKey, label := connector.label }) }

/-- `getFullConfig` from `combineConnectors`: the shared config with
the synthesized selector parameter concatenated onto its config
params, and the date-range flag passed through. -/
def getFullConfig (args : CombineArgs) (request : Request) : ConfigResult :=
  let userConfig := args.getConfig request
  { configParams := userConfig.configParams ++ [connectorOptionDef args],
    dateRangeRequired := userConfig.dateRangeRequired }

/-- `getConnector` from `combineConnectors`: look the dispatch value of
`request.configParams` up in the subconnector mapping. -/
def getConnector (args : CombineArgs) (request : Request) : Option SubConnector :=
  objLookup args.connectors
    (jsToPropertyKey (jsGet (jsGet (requestAsVal request) "configParams") connectorOptionKey))

/-- `validateFullConfig` from `combineConnectors`. It is written to
receive the config params, indexing its argument directly with the
dispatch key; the error names the selection it saw. -/
def validateFullConfig (args : CombineArgs) (configParams : JSVal) : Except String Unit :=
  match (match args.validateConfig with
         | some validateConfig => validateConfig configParams
         | none => .ok ()) with
  | .error e => .error e
  | .ok _ =>
      let selection := jsGet configParams connectorOptionKey
      if (objLookup args.connectors (jsToPropertyKey selection)).isSome then .ok ()
      else .error (userError ("Invalid Connector selected: " ++ jsDisplay selection))

/-- The composed `getSchema` from `combineConnectors`: it calls
`validateFullConfig(request)` — passing the whole request object where
config params are expected — then delegates to the selected
subconnector. The second component logs the keys of the subconnectors
whose methods were invoked. A delegation to a missing subconnector is
the JS `TypeError` of calling a method on `undefined`. -/
def composedGetSchema (args : CombineArgs) (request : Request) :
    Except String JSVal × List String :=
  match validateFullConfig args (requestAsVal request) with
  | .error e => (.error e, [])
  | .ok _ =>
      let selectionKey :=
        jsToPropertyKey (jsGet (jsGet (requestAsVal request) "configParams") connectorOptionKey)
      match objLookup args.connectors selectionKey with
      | some connector => (.ok (connector.getSchema request), [selectionKey])
      | none => (.error "TypeError: Cannot read property getSchema of undefined", [])

/-- The composed `getData` from `combineConnectors`, same shape as the
composed `getSchema`. -/
def composedGetData (args : CombineArgs) (request : Request) :
    Except String JSVal × List String :=
  match validateFullConfig args (requestAsVal request) with
  | .error e => (.error e, [])
  | .ok _ =>
      let selectionKey :=
        jsToPropertyKey (jsGet (jsGet (requestAsVal request) "configParams") connectorOptionKey)
      match objLookup args.connectors selectionKey with
      | some connector => (.ok (connector.getData request), [selectionKey])
      | none => (.error "TypeError: Cannot read property getData of undefined", [])

/- ## Subconnector validation (`main.jsx` lines 157-172, 241-248) -/

/-- A JS primitive as the strict-equality check of `validateSubconnector`
sees it. -/
inductive JsPrim where
  | pbool : Bool → JsPrim
  | pstr : String → JsPrim
  deriving Repr, DecidableEq

/-- JS strict equality `===` on primitives: values of different types
are never strictly equal. -/
def strictEq : JsPrim → JsPrim → Bool
  | .pbool a, .pbool b => a == b
  | .pstr a, .pstr b => a == b
  | _, _ => false

/-- The validation-relevant shape of one property of a subconnector
definition object. -/
inductive SubProp where
  | undefinedProp : SubProp
  | functionProp : SubProp
  | stringProp : String → SubProp
  | otherProp : SubProp
  deriving Repr, DecidableEq

/-- JS `instanceof Function` on a property. -/
def isFunctionProp : SubProp → Bool
  | .functionProp => true
  | _ => false

/-- JS `typeof` on a property. -/
def typeofProp : SubProp → String
  | .functionProp => "function"
  | .stringProp _ => "string"
  | .undefinedProp => "undefined"
  | .otherProp => "object"

/-- JS truthiness of a `typeof` result, which is always a non-empty
string. -/
def typeofTruthy (s : String) : Bool := s ≠ ""

/-- The shape of a subconnector definition as `validateSubconnector`
probes it. -/
structure SubDef where
  getData : SubProp := .undefinedProp
  getSchema : SubProp := .undefinedProp
  label : SubProp := .undefinedProp
  getConfig : SubProp := .undefinedProp
  deriving Repr, DecidableEq

/-- `validateSubconnector` from `main.jsx`, checks in source order.
The label check is embedded exactly as written: the source condition is
the operator chain `! typeof subconnector.getSchema === 'string'`,
which strict-compares the boolean `!typeof subconnector.getSchema`
against the string `'string'`. -/
def validateSubconnector (subconnector : Option SubDef) : Except String Unit :=
  match subconnector with
  | none => .error "You provided a falsey connector"
  | some sub =>
      if ¬ (isFunctionProp sub.getData) then
        .error "subconnector requires .getData()"
      else if ¬ (isFunctionProp sub.getSchema) then
        .error "subconnector requires .getSchema()"
      else if strictEq (.pbool (¬ (typeofTruthy (typeofProp sub.getSchema))))
                       (.pstr "string") then
        .error "subconnector requires a .label"
      else if isFunctionProp sub.getConfig then
        .error "subconnector should NOT have .getConfig(); this is handled by combineConnectors"
      else .ok ()

/-- The validation loop at the top of `combineConnectors`: validate
every subconnector in mapping order, rewrapping a thrown message with
the offending key. -/
def combineConnectorsValidate : List (String × SubDef) → Except String Unit
  | [] => .ok ()
  | (connectorKey, sub) :: rest =>
      match validateSubconnector (some sub) with
      | .error e => .error ("problem with subconnector " ++ connectorKey ++ ": " ++ e)
      | .ok _ => combineConnectorsValidate rest

/- ## makeGetConfig (`main.jsx` lines 94-100) -/

/-- A static config as accepted by `makeGetConfig`: either a bare array
of parameter definitions or a full config object. -/
inductive StaticConfig where
  | fromArray : List ParamDef → StaticConfig
  | fromObject : ConfigResult → StaticConfig

/-- `makeGetConfig` from `main.jsx`: normalize a static config into a
constant `getConfig` function; a bare array becomes config params with
the date-range flag false. -/
def makeGetConfig (config : StaticConfig) : Request → ConfigResult :=
  let normalizedConfig :=
    match config with
    | .fromArray configParams => { configParams := configParams, dateRangeRequired := false }
    | .fromObject c => c
  fun _ => normalizedConfig

/- ## Claim-side resolution definitions for the field-resolution
refinement (stated from the specification wording, to be compared with
the source-derived `findFieldOrDefault`) -/

/-- The resolution precedence exactly as the specification words it:
(a) if the name-remapping table maps the field name, the raw field
under the mapped key; else (b) the raw field under its own name; else
(c) the per-field default table entry; else (d) the scalar default. -/
def specResolvePrecedence (conn : TransformConnector) (fieldName : String)
    (receivedRow : JSObj) : Option JSVal :=
  let raw :=
    match conn.fieldMapping with
    | some fieldMapping =>
        match objLookup fieldMapping fieldName with
        | some mappedName => objLookup receivedRow mappedName
        | none => objLookup receivedRow fieldName
    | none => objLookup receivedRow fieldName
  match raw with
  | some v => some v
  | none =>
      match (match conn.defaultFields with
             | some defaultFields => objLookup defaultFields fieldName
             | none => none) with
      | some v => some v
      | none => conn.defaultField

/-- The amended resolution precedence: as `specResolvePrecedence`, but
step (a) applies only when the mapped name is non-empty (truthy), the
empty mapped name falling back to the field name itself. -/
def specResolvePrecedenceAmended (conn : TransformConnector) (fieldName : String)
    (receivedRow : JSObj) : Option JSVal :=
  let raw :=
    match conn.fieldMapping with
    | some fieldMapping =>
        match objLookup fieldMapping fieldName with
        | some mappedName =>
            if mappedName ≠ "" then objLookup receivedRow mappedName
            else objLookup receivedRow fieldName
        | none => objLookup receivedRow fieldName
    | none => objLookup receivedRow fieldName
  match raw with
  | some v => some v
  | none =>
      match (match conn.defaultFields with
             | some defaultFields => objLookup defaultFields fieldName
             | none => none) with
      | some v => some v
      | none => conn.defaultField

/- ## Theorems -/

/-- Claim C10: for every shared config function and every request, the
composed getConfig returns exactly the dateRangeRequired that the
shared config function returned for that request; moreover a shared
config built by makeGetConfig from a bare parameter array carries the
flag false, and one built from a full config object passes the object
through unchanged. -/
theorem composed_getConfig_preserves_dateRangeRequired
    (args : CombineArgs) (request : Request) :
    (getFullConfig args request).dateRangeRequired
      = (args.getConfig request).dateRangeRequired ∧
    (∀ configParams req, (makeGetConfig (.fromArray configParams) req).dateRangeRequired = false) ∧
    (∀ c req, makeGetConfig (.fromObject c) req = c) :=
  ⟨rfl, fun _ _ => rfl, fun _ _ => rfl⟩

/-- The refresh step of the dynamic schema cache is the identity
whenever no config has been cached yet. -/
theorem refreshSchema_of_knownConfig_none (source : ConfigParams → Schemas)
    (st : SchemaCacheState) (configParams : ConfigParams)
    (h : st.knownConfig = none) : refreshSchema source st configParams = st := by
  unfold refreshSchema
  rw [h]

/-- Claim C1 (code bug): the dynamic schema getters never invoke the
schema source. The guard of refreshSchema demands an already-cached
config, but the cache is only ever written inside that guard, so after
any sequence of getSchema/getKeyedSchema/getUnkeyedSchema calls the
closure state is still the initial one: the source has been invoked
zero times, no config was ever cached, and the next call still returns
a null schema. In particular a call whose config params differ from
those of an earlier call does not invoke the source, contradicting the
claimed recompute-on-change behaviour. -/
theorem dynamic_schema_source_never_invoked
    (source : ConfigParams → Schemas) (calls : List ConfigParams)
    (configParams : ConfigParams) :
    runSchemaCalls source calls = ({} : SchemaCacheState) ∧
    (runSchemaCalls source calls).sourceCalls = 0 ∧
    (runSchemaCalls source calls).knownConfig = none ∧
    (schemaGetterCall source (runSchemaCalls source calls) configParams).2 = none := by
  have key : runSchemaCalls source calls = ({} : SchemaCacheState) := by
    unfold runSchemaCalls
    induction calls with
    | nil => rfl
    | cons c rest ih =>
        rw [List.foldl_cons]
        have : (schemaGetterCall source ({} : SchemaCacheState) c).1
            = ({} : SchemaCacheState) := by
          unfold schemaGetterCall
          rw [refreshSchema_of_knownConfig_none source {} c rfl]
        rw [this]
        exact ih
  refine ⟨key, ?_, ?_, ?_⟩
  · rw [key]
  · rw [key]
  · rw [key]
    unfold schemaGetterCall
    rw [refreshSchema_of_knownConfig_none source {} configParams rfl]

/-- Claim C9 (code bug): the label requirement of validateSubconnector
can never fire. The source condition is the operator chain
`! typeof subconnector.getSchema === 'string'`, which strict-compares
a boolean against a string and is therefore always false, so any
subconnector with getData and getSchema functions and no getConfig
passes validation even with no label at all; in particular composing a
mapping with such a label-less subconnector succeeds. The other three
checks do fire as claimed. -/
theorem validateSubconnector_label_check_never_fires (sub : SubDef)
    (hd : sub.getData = .functionProp) (hs : sub.getSchema = .functionProp)
    (hc : sub.getConfig ≠ .functionProp) :
    validateSubconnector (some sub) = .ok () ∧
    combineConnectorsValidate
        [("issues", { getData := .functionProp, getSchema := .functionProp })] = .ok () ∧
    combineConnectorsValidate
        [("issues", { getSchema := .functionProp, label := .stringProp "Issues" })]
      = .error "problem with subconnector issues: subconnector requires .getData()" ∧
    combineConnectorsValidate
        [("issues", { getData := .functionProp, label := .stringProp "Issues" })]
      = .error "problem with subconnector issues: subconnector requires .getSchema()" ∧
    combineConnectorsValidate
        [("issues", { getData := .functionProp, getSchema := .functionProp,
                      label := .stringProp "Issues", getConfig := .functionProp })]
      = .error ("problem with subconnector issues: subconnector should NOT have "
          ++ ".getConfig(); this is handled by combineConnectors") := by
  refine ⟨?_, rfl, rfl, rfl, rfl⟩
  obtain ⟨d, s, l, c⟩ := sub
  cases hd
  cases hs
  cases c with
  | functionProp => exact absurd rfl hc
  | undefinedProp => rfl
  | stringProp s2 => rfl
  | otherProp => rfl

/-- Witness for the C9 theorem at a concrete label-less subconnector
definition. -/
theorem validateSubconnector_label_check_never_fires_witness :
    validateSubconnector
        (some { getData := .functionProp, getSchema := .functionProp }) = .ok () :=
  (validateSubconnector_label_check_never_fires
    { getData := .functionProp, getSchema := .functionProp }
    rfl rfl (by decide)).1


/-- The value the composed validation reads for the dispatch key is
always the JS undefined: it indexes the request object itself, whose
only own properties are configParams and fields. -/
theorem requestAsVal_dispatch_lookup (request : Request) :
    jsGet (requestAsVal request) connectorOptionKey = .undefined := by
  rfl

/-- Claim C2 (code bug): composedGetSchema and composedGetData pass
the whole request object to validateFullConfig, which expects the
config params, so the dispatch key is looked up on the request object
itself and reads as undefined. Hence, whenever no custom
validateConfig is installed and no subconnector is keyed by the
literal string "undefined", every composed call throws the
user-facing error "Invalid Connector selected: undefined" and no
subconnector method is ever invoked — even when request.configParams
selects an existing subconnector. -/
theorem composed_dispatch_always_rejects (args : CombineArgs) (request : Request)
    (hv : args.validateConfig = none)
    (hu : objLookup args.connectors "undefined" = none) :
    composedGetData args request
      = (.error (userError "Invalid Connector selected: undefined"), []) ∧
    composedGetSchema args request
      = (.error (userError "Invalid Connector selected: undefined"), []) := by
  have hval : validateFullConfig args (requestAsVal request)
      = .error (userError "Invalid Connector selected: undefined") := by
    unfold validateFullConfig
    rw [hv, requestAsVal_dispatch_lookup]
    simp only [jsToPropertyKey, hu]
    rfl
  constructor
  · unfold composedGetData
    rw [hval]
  · unfold composedGetSchema
    rw [hval]

/-- A concrete subconnector used by the dispatch witness. -/
def issuesSub : SubConnector :=
  { label := "Issues",
    getSchema := fun _ => .str "issues schema",
    getData := fun _ => .str "issues data" }

/-- Concrete combineConnectors arguments with a single subconnector
keyed "issues" and no custom validateConfig. -/
def issuesArgs : CombineArgs :=
  { getConfig := fun _ => { configParams := [] },
    connectors := [("issues", issuesSub)] }

/-- A concrete request whose configParams select the existing "issues"
subconnector through the reserved dispatch key. -/
def issuesRequest : Request :=
  { configParams := [(connectorOptionKey, "issues")] }

/-- Witness for the C2 theorem: even with the dispatch key of
request.configParams set to the existing subconnector key "issues",
the composed getData and getSchema throw the user-facing dispatch
error and invoke no subconnector. -/
theorem composed_dispatch_always_rejects_witness :
    composedGetData issuesArgs issuesRequest
      = (.error (userError "Invalid Connector selected: undefined"), []) ∧
    composedGetSchema issuesArgs issuesRequest
      = (.error (userError "Invalid Connector selected: undefined"), []) :=
  composed_dispatch_always_rejects issuesArgs issuesRequest rfl rfl

/-- Claim C5 (counterexample): the resolution precedence the claim
words describe disagrees with the code when the remapping table maps a
field name to the empty string. With fieldMapping mapping "title" to
"" and a raw record carrying both an empty-named property and a
"title" property, the claimed precedence resolves the raw field under
the mapped key "", while the code treats the falsy mapped name as no
mapping and resolves the raw field under "title" itself. -/
theorem findFieldOrDefault_empty_mapping_cex :
    findFieldOrDefault { fieldMapping := some [("title", "")] } "title"
        [("", .str "under empty key"), ("title", .str "under own name")]
      = .ok (.str "under own name") ∧
    specResolvePrecedence { fieldMapping := some [("title", "")] } "title"
        [("", .str "under empty key"), ("title", .str "under own name")]
      = some (.str "under empty key") ∧
    ("under own name" : String) ≠ "under empty key" :=
  ⟨rfl, rfl, by decide⟩

/-- The defaulting steps (c) and (d) of the code, getDefaultField,
written as the claim words them: the per-field table entry first, the
scalar default otherwise. -/
theorem getDefaultField_eq_chain (conn : TransformConnector) (fieldName : String) :
    getDefaultField conn fieldName
      = match (match conn.defaultFields with
               | some defaultFields => objLookup defaultFields fieldName
               | none => none) with
        | some v => some v
        | none => conn.defaultField := by
  unfold getDefaultField
  repeat' split
  all_goals simp_all

/-- Claim C5 (amended): for every connector, requested field name and
raw record, findFieldOrDefault resolves exactly by the precedence (a)
the raw field under the mapped key when the remapping table maps the
field name to a non-empty name, else (b) the raw field under its own
name, else (c) the per-field default table entry, else (d) the scalar
default, and throws the error naming the missing field when none of
these yields a defined value; in particular the end-to-end example of
the claim — fieldMapping mapping "title" to "name" and a raw record
with "name" bound to "hello" — resolves "hello". -/
theorem findFieldOrDefault_precedence_amended (conn : TransformConnector)
    (fieldName : String) (receivedRow : JSObj) :
    (findFieldOrDefault conn fieldName receivedRow
      = match specResolvePrecedenceAmended conn fieldName receivedRow with
        | some v => .ok v
        | none => .error (missingFieldMessage fieldName)) ∧
    findFieldOrDefault { fieldMapping := some [("title", "name")] } "title"
        [("name", .str "hello")]
      = .ok (.str "hello") := by
  constructor
  · unfold findFieldOrDefault specResolvePrecedenceAmended findField
    rw [← getDefaultField_eq_chain]
    repeat' split
    all_goals simp_all
  · rfl

/-- Assigning a fresh key appends the property at the end. -/
theorem objInsert_append (obj : List (String × α)) (k : String) (v : α)
    (h : ∀ p ∈ obj, p.1 ≠ k) : objInsert obj k v = obj ++ [(k, v)] := by
  have hnone : obj.find? (fun p => p.1 == k) = none :=
    List.find?_eq_none.mpr (fun x hx => by simpa using h x hx)
  simp [objInsert, hnone]

/-- The keyed-schema fold over fields with pairwise distinct names,
generalized over the accumulator. -/
theorem makeKeyedSchema_foldl (s : List SchemaField) :
    ∀ acc : List (String × SchemaField),
      (∀ f ∈ s, ∀ p ∈ acc, p.1 ≠ f.name) →
      (s.map SchemaField.name).Nodup →
      s.foldl (fun keyedSchema field => objInsert keyedSchema field.name field) acc
        = acc ++ s.map (fun f => (f.name, f)) := by
  induction s with
  | nil => intro acc _ _; simp
  | cons f rest ih =>
      intro acc hdisj hnd
      rw [List.foldl_cons, objInsert_append _ _ _ (fun p hp => hdisj f (by simp) p hp)]
      have hnd2 : (f.name ∉ rest.map SchemaField.name) ∧ (rest.map SchemaField.name).Nodup := by
        have := hnd
        rw [List.map_cons, List.nodup_cons] at this
        exact this
      rw [ih (acc ++ [(f.name, f)])
        (by
          intro g hg p hp
          rcases List.mem_append.mp hp with h1 | h2
          · exact hdisj g (List.mem_cons_of_mem f hg) p h1
          · have hp2 : p = (f.name, f) := by simpa using h2
            subst hp2
            intro heq
            have heq2 : f.name = g.name := heq
            apply hnd2.1
            rw [heq2]
            exact List.mem_map_of_mem SchemaField.name hg)
        hnd2.2]
      simp

/-- With pairwise distinct field names, the keyed schema is the list of
name-field pairs in schema order. -/
theorem makeKeyedSchema_eq_of_nodup (s : List SchemaField)
    (hnd : (s.map SchemaField.name).Nodup) :
    makeKeyedSchema_ s = s.map (fun f => (f.name, f)) := by
  unfold makeKeyedSchema_
  simpa using makeKeyedSchema_foldl s [] (by simp) hnd

/-- Overwriting the name of a schema field with its own name is the
identity. -/
theorem schemaField_set_own_name (f : SchemaField) : { f with name := f.name } = f := rfl

/-- Claim C7: schema conversion round-trips losslessly. For a keyed
schema with pairwise distinct keys whose fields carry their key as
name (the data-model invariant), keyed → unkeyed → keyed is the
identity and every field of the result still has its name as key;
symmetrically, for an unkeyed schema with pairwise distinct field
names, unkeyed → keyed → unkeyed preserves the field sequence. -/
theorem schema_conversion_roundtrip
    (keyedSchema : List (String × SchemaField)) (schema : List SchemaField)
    (hk : (keyedSchema.map Prod.fst).Nodup)
    (hname : ∀ p ∈ keyedSchema, p.2.name = p.1)
    (hs : (schema.map SchemaField.name).Nodup) :
    makeKeyedSchema_ (makeUnkeyedSchema_ keyedSchema) = keyedSchema ∧
    (∀ p ∈ makeKeyedSchema_ (makeUnkeyedSchema_ keyedSchema), p.2.name = p.1) ∧
    makeUnkeyedSchema_ (makeKeyedSchema_ schema) = schema := by
  have hsnd : makeUnkeyedSchema_ keyedSchema = keyedSchema.map Prod.snd := by
    unfold makeUnkeyedSchema_
    refine List.map_congr_left ?_
    intro p hp
    rw [← hname p hp]
  have hpart1 : makeKeyedSchema_ (makeUnkeyedSchema_ keyedSchema) = keyedSchema := by
    rw [hsnd, makeKeyedSchema_eq_of_nodup]
    · rw [List.map_map]
      refine List.map_congr_left ?_ |>.trans (List.map_id keyedSchema)
      intro p hp
      simp only [Function.comp_apply]
      rw [hname p hp]
      rfl
    · rw [List.map_map]
      have : (SchemaField.name ∘ Prod.snd : String × SchemaField → String) = ?hole := ?e
      case hole => exact fun p => p.2.name
      case e => rfl
      rw [this]
      have h2 : keyedSchema.map (fun p => p.2.name) = keyedSchema.map Prod.fst :=
        List.map_congr_left hname
      rw [h2]
      exact hk
  refine ⟨hpart1, ?_, ?_⟩
  · rw [hpart1]
    exact hname
  · rw [makeKeyedSchema_eq_of_nodup schema hs]
    unfold makeUnkeyedSchema_
    rw [List.map_map]
    refine (List.map_congr_left ?_).trans (List.map_id schema)
    intro f _
    rfl

/-- Witness for the C7 theorem at a concrete two-field schema. -/
theorem schema_conversion_roundtrip_witness :
    makeKeyedSchema_ (makeUnkeyedSchema_
        [("alpha", { name := "alpha", label := "A" }), ("beta", { name := "beta", label := "B" })])
      = [("alpha", { name := "alpha", label := "A" }), ("beta", { name := "beta", label := "B" })] ∧
    (∀ p ∈ makeKeyedSchema_ (makeUnkeyedSchema_
        [("alpha", { name := "alpha", label := "A" }), ("beta", { name := "beta", label := "B" })]),
      p.2.name = p.1) ∧
    makeUnkeyedSchema_ (makeKeyedSchema_
        [{ name := "alpha", label := "A" }, ({ name := "beta", label := "B" } : SchemaField)])
      = [{ name := "alpha", label := "A" }, ({ name := "beta", label := "B" } : SchemaField)] :=
  schema_conversion_roundtrip
    [("alpha", { name := "alpha", label := "A" }), ("beta", { name := "beta", label := "B" })]
    [{ name := "alpha", label := "A" }, ({ name := "beta", label := "B" } : SchemaField)]
    (by decide) (by decide) (by decide)

/-- A transformed row has one value per requested field name, in
request order, each the result of transformNamedField on that name. -/
theorem transformRow_align (conn : TransformConnector) (receivedRow : JSObj) :
    ∀ (fieldNames : List String) (values : List JSVal),
      transformRow conn receivedRow fieldNames = .ok values →
      values.length = fieldNames.length ∧
      ∀ i (hi : i < fieldNames.length) (hv : i < values.length),
        transformNamedField conn (fieldNames.get ⟨i, hi⟩) receivedRow
          = .ok (values.get ⟨i, hv⟩) := by
  intro fieldNames
  induction fieldNames with
  | nil =>
      intro values h
      have hv : values = [] := by
        simpa [transformRow] using h.symm
      subst hv
      exact ⟨rfl, fun i hi _ => absurd hi (by simp)⟩
  | cons f rest ih =>
      intro values h
      simp only [transformRow] at h
      cases ht : transformNamedField conn f receivedRow with
      | error e => rw [ht] at h; exact absurd h (by simp)
      | ok v =>
          rw [ht] at h
          cases hr : transformRow conn receivedRow rest with
          | error e => rw [hr] at h; exact absurd h (by simp)
          | ok vs =>
              rw [hr] at h
              have hv : values = v :: vs := by
                simpa using h.symm
              subst hv
              obtain ⟨hlen, halign⟩ := ih vs hr
              refine ⟨by simpa using hlen, ?_⟩
              intro i hi hvi
              cases i with
              | zero => simpa using ht
              | succ n =>
                  have hn : n < rest.length := by simpa using hi
                  have hvn : n < vs.length := by simpa using hvi
                  simpa using halign n hn hvn

/-- Every row of a successful transformRecords comes from one of the
records, via transformRow. -/
theorem transformRecords_mem (conn : TransformConnector) (fieldNames : List String) :
    ∀ (records : List JSObj) (rows : List (List JSVal)),
      transformRecords conn fieldNames records = .ok rows →
      ∀ row ∈ rows, ∃ receivedRow ∈ records,
        transformRow conn receivedRow fieldNames = .ok row := by
  intro records
  induction records with
  | nil =>
      intro rows h row hrow
      have : rows = [] := by simpa [transformRecords] using h.symm
      subst this
      exact absurd hrow (by simp)
  | cons receivedRow rest ih =>
      intro rows h row hrow
      simp only [transformRecords] at h
      cases ht : transformRow conn receivedRow fieldNames with
      | error e => rw [ht] at h; exact absurd h (by simp)
      | ok values =>
          rw [ht] at h
          cases hr : transformRecords conn fieldNames rest with
          | error e => rw [hr] at h; exact absurd h (by simp)
          | ok rows2 =>
              rw [hr] at h
              have hv : rows = values :: rows2 := by simpa using h.symm
              subst hv
              rcases List.mem_cons.mp hrow with h1 | h2
              · exact ⟨receivedRow, by simp, by rw [ht, h1]⟩
              · obtain ⟨rec2, hrec2, hrow2⟩ := ih rows2 hr row h2
                exact ⟨rec2, List.mem_cons_of_mem _ hrec2, hrow2⟩

/-- Claim C4: for every raw payload (sequence or keyed mapping) and
every ordered list of requested field names, each row produced by the
record transform has exactly one value per requested field name, and
the value at position i is the one transformNamedField resolves for
the field name at position i, for all field-name orderings. -/
theorem transform_rows_align (conn : TransformConnector) (receivedData : RawPayload)
    (fieldNames : List String) (rows : List Row)
    (h : baseTransformRows conn receivedData fieldNames = .ok rows) :
    ∀ row ∈ rows, ∃ receivedRow ∈ receivedData.records,
      row.values.length = fieldNames.length ∧
      ∀ i (hi : i < fieldNames.length) (hv : i < row.values.length),
        transformNamedField conn (fieldNames.get ⟨i, hi⟩) receivedRow
          = .ok (row.values.get ⟨i, hv⟩) := by
  intro row hrow
  unfold baseTransformRows at h
  cases hd : transformData conn receivedData fieldNames with
  | error e => rw [hd] at h; exact absurd h (by simp)
  | ok rawRows =>
      rw [hd] at h
      have hrows : rows = rawRows.map Row.mk := by simpa using h.symm
      subst hrows
      obtain ⟨values, hvmem, hvrow⟩ := List.mem_map.mp hrow
      subst hvrow
      obtain ⟨receivedRow, hrecmem, hrec⟩ :=
        transformRecords_mem conn fieldNames receivedData.records rawRows hd values hvmem
      obtain ⟨hlen, halign⟩ := transformRow_align conn receivedRow fieldNames values hrec
      exact ⟨receivedRow, hrecmem, hlen, fun i hi hv => halign i hi hv⟩

/-- Witness for the C4 theorem: the end-to-end example of the spec,
schema fields a and b, payload [{a:1,b:2},{a:3,b:4}], requested
["b","a"], yields rows [[2,1],[4,3]]; the alignment is witnessed at
the first produced row. -/
theorem transform_rows_align_witness :
    ∃ receivedRow ∈ (RawPayload.seq
        [[("a", .num 1), ("b", .num 2)], [("a", .num 3), ("b", .num 4)]]).records,
      (Row.mk [.num 2, .num 1]).values.length = (["b", "a"] : List String).length ∧
      ∀ i (hi : i < (["b", "a"] : List String).length)
        (hv : i < (Row.mk [.num 2, .num 1]).values.length),
        transformNamedField {} ((["b", "a"] : List String).get ⟨i, hi⟩) receivedRow
          = .ok ((Row.mk [.num 2, .num 1]).values.get ⟨i, hv⟩) :=
  transform_rows_align {}
    (RawPayload.seq [[("a", .num 1), ("b", .num 2)], [("a", .num 3), ("b", .num 4)]])
    ["b", "a"] [Row.mk [.num 2, .num 1], Row.mk [.num 4, .num 3]] rfl
    (Row.mk [.num 2, .num 1]) (by simp)

/-- A key drawn from the key list of an object always looks up. -/
theorem objLookup_isSome_of_mem_keys (obj : List (String × α)) (k : String)
    (h : k ∈ obj.map Prod.fst) : (objLookup obj k).isSome := by
  obtain ⟨p, hp, hk⟩ := List.mem_map.mp h
  have hfind : (obj.find? (fun q => q.1 == k)).isSome :=
    List.find?_isSome.mpr ⟨p, hp, by simp [hk]⟩
  obtain ⟨q, hq⟩ := Option.isSome_iff_exists.mp hfind
  unfold objLookup
  rw [hq]
  rfl

/-- With pairwise distinct keys, lookup of the key of a member returns
the value of that member. -/
theorem objLookup_eq_of_nodup (obj : List (String × α))
    (hnd : (obj.map Prod.fst).Nodup) (p : String × α) (hp : p ∈ obj) :
    objLookup obj p.1 = some p.2 := by
  induction obj with
  | nil => exact absurd hp (by simp)
  | cons q rest ih =>
      rw [List.map_cons, List.nodup_cons] at hnd
      rcases List.mem_cons.mp hp with h1 | h2
      · subst h1
        simp [objLookup]
      · have hne : ¬ (q.1 == p.1) = true := by
          simp only [beq_iff_eq]
          intro heq
          exact hnd.1 (heq ▸ List.mem_map_of_mem Prod.fst h2)
        unfold objLookup
        have hstep : (q :: rest).find? (fun r => r.1 == p.1)
            = rest.find? (fun r => r.1 == p.1) :=
          List.find?_cons_of_neg _ hne
        rw [hstep]
        exact ih hnd.2 h2

/-- mapObjectSorted produces one element per property. -/
theorem mapObjectSorted_length (object : List (String × α)) (func : α → String → β) :
    (mapObjectSorted object func).length = object.length := by
  unfold mapObjectSorted
  have hall : ∀ (l : List String), (∀ k ∈ l, k ∈ object.map Prod.fst) →
      (l.filterMap (fun key => (objLookup object key).map (fun value => func value key))).length
        = l.length := by
    intro l
    induction l with
    | nil => intro _; rfl
    | cons k rest ih =>
        intro hmem
        obtain ⟨v, hv⟩ := Option.isSome_iff_exists.mp
          (objLookup_isSome_of_mem_keys object k (hmem k (by simp)))
        rw [List.filterMap_cons, hv]
        simp only [Option.map_some']
        rw [List.length_cons, ih (fun x hx => hmem x (by simp [hx]))]
        rfl
  rw [hall _ (fun k hk => (List.mergeSort_perm (object.map Prod.fst) _).mem_iff.mp hk)]
  rw [List.length_mergeSort, List.length_map]

/-- The option values produced by the synthesized selector are exactly
the subconnector keys in sorted order. -/
theorem connectorOptionDef_values (args : CombineArgs) :
    ((connectorOptionDef args).options.map (fun o => o.value))
      = (args.connectors.map (fun p => p.1)).mergeSort (fun a b => a ≤ b) := by
  show ((mapObjectSorted args.connectors (fun connector connectorKey =>
      ({ value := connectorKey, label := connector.label } : SelectOption))).map
        (fun o => o.value))
      = (args.connectors.map (fun p => p.1)).mergeSort (fun a b => a ≤ b)
  unfold mapObjectSorted
  have hall : ∀ (l : List String), (∀ k ∈ l, k ∈ args.connectors.map Prod.fst) →
      ((l.filterMap (fun key => (objLookup args.connectors key).map (fun value =>
          ({ value := key, label := value.label } : SelectOption)))).map (fun o => o.value)) = l := by
    intro l
    induction l with
    | nil => intro _; rfl
    | cons k rest ih =>
        intro hmem
        obtain ⟨v, hv⟩ := Option.isSome_iff_exists.mp
          (objLookup_isSome_of_mem_keys args.connectors k (hmem k (by simp)))
        rw [List.filterMap_cons, hv]
        simp only [Option.map_some']
        rw [List.map_cons, ih (fun x hx => hmem x (by simp [hx]))]
  exact hall _ (fun k hk => (List.mergeSort_perm (args.connectors.map Prod.fst) _).mem_iff.mp hk)

/-- Claim C6: for every shared config function and subconnector
mapping with distinct keys, the composed getConfig returns the shared
config params with exactly one parameter appended at the end — a
SELECT_SINGLE parameter displayed as "Data Type" whose options are
value/label pairs for every subconnector, in order sorted by
subconnector key — so the length grows by exactly one and the option
count equals the subconnector count. -/
theorem combined_getConfig_appends_selector (args : CombineArgs) (request : Request)
    (hnd : (args.connectors.map Prod.fst).Nodup) :
    (getFullConfig args request).configParams
      = (args.getConfig request).configParams ++ [connectorOptionDef args] ∧
    (getFullConfig args request).configParams.length
      = (args.getConfig request).configParams.length + 1 ∧
    (connectorOptionDef args).type = "SELECT_SINGLE" ∧
    (connectorOptionDef args).displayName = "Data Type" ∧
    (connectorOptionDef args).options.length = args.connectors.length ∧
    ((connectorOptionDef args).options.map (fun o => o.value))
      = (args.connectors.map (fun p => p.1)).mergeSort (fun a b => a ≤ b) ∧
    ((connectorOptionDef args).options.map (fun o => o.value)).Pairwise (fun a b => a ≤ b) ∧
    ∀ p ∈ args.connectors,
      ({ value := p.1, label := p.2.label } : SelectOption) ∈ (connectorOptionDef args).options := by
  refine ⟨rfl, by simp [getFullConfig], rfl, rfl, ?_, connectorOptionDef_values args, ?_, ?_⟩
  · exact mapObjectSorted_length args.connectors _
  · rw [connectorOptionDef_values args]
    have hpair := @List.sorted_mergeSort String (fun a b => a ≤ b)
      (by
        intro a b c hab hbc
        simp only [decide_eq_true_eq] at hab hbc ⊢
        exact le_trans hab hbc)
      (by
        intro a b
        simpa using le_total a b)
      (args.connectors.map (fun p => p.1))
    exact hpair.imp (fun h => by simpa using h)
  · intro p hp
    show _ ∈ mapObjectSorted args.connectors _
    unfold mapObjectSorted
    rw [List.mem_filterMap]
    refine ⟨p.1, ?_, ?_⟩
    · exact (List.mergeSort_perm _ _).mem_iff.mpr (List.mem_map_of_mem Prod.fst hp)
    · rw [objLookup_eq_of_nodup args.connectors hnd p hp]
      rfl

/-- A second concrete subconnector used by the composition witness. -/
def starsSub : SubConnector :=
  { label := "Stars",
    getSchema := fun _ => .str "stars schema",
    getData := fun _ => .str "stars data" }

/-- Concrete combineConnectors arguments with two subconnectors whose
insertion order differs from their sorted key order. -/
def twoSubArgs : CombineArgs :=
  { getConfig := fun _ => { configParams := [{ name := "organization" }, { name := "repository" }],
                            dateRangeRequired := true },
    connectors := [("stars", starsSub), ("issues", issuesSub)] }

/-- Witness for the C6 theorem at the two-subconnector arguments. -/
theorem combined_getConfig_appends_selector_witness :
    (getFullConfig twoSubArgs { configParams := [] }).configParams
      = (twoSubArgs.getConfig { configParams := [] }).configParams
          ++ [connectorOptionDef twoSubArgs] ∧
    (getFullConfig twoSubArgs { configParams := [] }).configParams.length
      = (twoSubArgs.getConfig { configParams := [] }).configParams.length + 1 ∧
    (connectorOptionDef twoSubArgs).type = "SELECT_SINGLE" ∧
    (connectorOptionDef twoSubArgs).displayName = "Data Type" ∧
    (connectorOptionDef twoSubArgs).options.length = twoSubArgs.connectors.length ∧
    ((connectorOptionDef twoSubArgs).options.map (fun o => o.value))
      = (twoSubArgs.connectors.map (fun p => p.1)).mergeSort (fun a b => a ≤ b) ∧
    ((connectorOptionDef twoSubArgs).options.map (fun o => o.value)).Pairwise (fun a b => a ≤ b) ∧
    ∀ p ∈ twoSubArgs.connectors,
      ({ value := p.1, label := p.2.label } : SelectOption) ∈ (connectorOptionDef twoSubArgs).options :=
  combined_getConfig_appends_selector twoSubArgs { configParams := [] } (by decide)

/-- The loop page numbers are exactly 1..totalPages. -/
theorem pageNumbers_eq_range' (totalPages : Nat) :
    pageNumbers totalPages = List.range' 1 totalPages := by
  rw [List.range'_eq_map_range]
  unfold pageNumbers
  exact List.map_congr_left (fun a _ => by omega)

/-- Membership in the loop page numbers. -/
theorem mem_pageNumbers (totalPages i : Nat) :
    i ∈ pageNumbers totalPages ↔ 1 ≤ i ∧ i ≤ totalPages := by
  rw [pageNumbers_eq_range', List.mem_range'_1]
  omega

/-- The loop page numbers are pairwise distinct. -/
theorem nodup_pageNumbers (totalPages : Nat) : (pageNumbers totalPages).Nodup :=
  (List.nodup_range totalPages).map (fun a b h => by omega)

/-- When every listed page fetches and parses, the page loop returns
the accumulated stars followed by the concatenated page records, and
fetches exactly the listed pages in order. -/
theorem starsPageLoop_all_ok (env : StarsEnv) :
    ∀ (pages : List Nat) (stars : List JSVal),
      (∀ i ∈ pages, (env.fetch i).isSome ∧
        ((env.fetch i).bind (fun page => env.parse page.body)).isSome) →
      starsPageLoop env pages stars
        = (.ok (stars ++ pages.flatMap (envPageRecords env)), pages) := by
  intro pages
  induction pages with
  | nil => intro stars _; simp [starsPageLoop]
  | cons i rest ih =>
      intro stars hok
      obtain ⟨hfet, hpar⟩ := hok i (by simp)
      obtain ⟨page, hpage⟩ := Option.isSome_iff_exists.mp hfet
      rw [hpage] at hpar
      obtain ⟨recs, hrecs⟩ := Option.isSome_iff_exists.mp (by simpa using hpar)
      have hrecords : envPageRecords env i = recs := by
        unfold envPageRecords
        simp only [hpage, hrecs]
        rfl
      simp only [starsPageLoop, hpage, hrecs]
      rw [ih (stars ++ recs) (fun j hj => hok j (by simp [hj]))]
      rw [List.flatMap_cons, hrecords, List.append_assoc]

/-- A fetch failure at any listed page, after pages that all succeed,
aborts the loop with the user-facing fetch error. -/
theorem starsPageLoop_fetch_error (env : StarsEnv) :
    ∀ (good : List Nat) (k : Nat) (rest : List Nat) (stars : List JSVal),
      (∀ i ∈ good, (env.fetch i).isSome ∧
        ((env.fetch i).bind (fun page => env.parse page.body)).isSome) →
      env.fetch k = none →
      (starsPageLoop env (good ++ k :: rest) stars).1 = .error fetchErrorMessage := by
  intro good
  induction good with
  | nil =>
      intro k rest stars _ hk
      simp only [List.nil_append, starsPageLoop, hk]
  | cons i rest2 ih =>
      intro k rest stars hok hk
      obtain ⟨hfet, hpar⟩ := hok i (by simp)
      obtain ⟨page, hpage⟩ := Option.isSome_iff_exists.mp hfet
      rw [hpage] at hpar
      obtain ⟨recs, hrecs⟩ := Option.isSome_iff_exists.mp (by simpa using hpar)
      simp only [List.cons_append, starsPageLoop, hpage, hrecs, List.append_eq]
      rw [ih k rest (stars ++ recs) (fun j hj => hok j (by simp [hj])) hk]

/-- A parse failure at any listed page, after pages that all succeed,
aborts the loop with the user-facing parse error. -/
theorem starsPageLoop_parse_error (env : StarsEnv) :
    ∀ (good : List Nat) (k : Nat) (rest : List Nat) (stars : List JSVal) (page : StarsPage),
      (∀ i ∈ good, (env.fetch i).isSome ∧
        ((env.fetch i).bind (fun p => env.parse p.body)).isSome) →
      env.fetch k = some page →
      env.parse page.body = none →
      (starsPageLoop env (good ++ k :: rest) stars).1 = .error parseErrorMessage := by
  intro good
  induction good with
  | nil =>
      intro k rest stars page _ hk hp
      simp only [List.nil_append, starsPageLoop, hk, hp]
  | cons i rest2 ih =>
      intro k rest stars page hok hk hp
      obtain ⟨hfet, hpar⟩ := hok i (by simp)
      obtain ⟨pg, hpage⟩ := Option.isSome_iff_exists.mp hfet
      rw [hpage] at hpar
      obtain ⟨recs, hrecs⟩ := Option.isSome_iff_exists.mp (by simpa using hpar)
      simp only [List.cons_append, starsPageLoop, hpage, hrecs, List.append_eq]
      rw [ih k rest (stars ++ recs) page (fun j hj => hok j (by simp [hj])) hk hp]

/-- Claim C3: for every non-sample paginated getData whose first page
reports last-page N (and whose pages all fetch and parse), exactly N+1
fetch calls are made — page 1 twice, pages 2..N once each, in order —
and the result is the concatenation of the parsed records of pages
1..N in page order; when the link header is absent, the page count is
1 and page 1 is fetched twice in total. -/
theorem stars_pagination_fetch_counts (env : StarsEnv) (initialResponse : StarsPage) (N : Nat)
    (h1 : env.fetch 1 = some initialResponse) :
    (initialResponse.linkLast = some N → 1 ≤ N →
      (∀ i, 1 ≤ i → i ≤ N → (env.fetch i).isSome ∧
        ((env.fetch i).bind (fun page => env.parse page.body)).isSome) →
      (starsGetData env false).2 = 1 :: pageNumbers N ∧
      (starsGetData env false).2.length = N + 1 ∧
      (starsGetData env false).2.count 1 = 2 ∧
      (∀ j, 2 ≤ j → j ≤ N → (starsGetData env false).2.count j = 1) ∧
      (starsGetData env false).1 = .ok ((pageNumbers N).flatMap (envPageRecords env))) ∧
    (initialResponse.linkLast = none →
      (env.parse initialResponse.body).isSome →
      (starsGetData env false).2 = [1, 1] ∧
      (starsGetData env false).1 = .ok (envPageRecords env 1)) := by
  constructor
  · intro hlink hN hok
    have hokpages : ∀ i ∈ pageNumbers N, (env.fetch i).isSome ∧
        ((env.fetch i).bind (fun page => env.parse page.body)).isSome := by
      intro i hi
      obtain ⟨hi1, hi2⟩ := (mem_pageNumbers N i).mp hi
      exact hok i hi1 hi2
    have hdata : starsGetData env false
        = (.ok ([] ++ (pageNumbers N).flatMap (envPageRecords env)), 1 :: pageNumbers N) := by
      unfold starsGetData
      simp only [Bool.false_eq_true, if_false, h1, numberOfPages, hlink]
      rw [starsPageLoop_all_ok env (pageNumbers N) [] hokpages]
    rw [hdata]
    refine ⟨rfl, ?_, ?_, ?_, by simp⟩
    · simp [pageNumbers]
    · rw [List.count_cons_self]
      rw [List.count_eq_one_of_mem (nodup_pageNumbers N)
        ((mem_pageNumbers N 1).mpr ⟨le_refl 1, hN⟩)]
    · intro j hj2 hjN
      rw [List.count_cons_of_ne (by omega)]
      exact List.count_eq_one_of_mem (nodup_pageNumbers N)
        ((mem_pageNumbers N j).mpr ⟨by omega, hjN⟩)
  · intro hlink hparse
    have hok1 : ∀ i ∈ pageNumbers 1, (env.fetch i).isSome ∧
        ((env.fetch i).bind (fun page => env.parse page.body)).isSome := by
      intro i hi
      obtain ⟨hi1, hi2⟩ := (mem_pageNumbers 1 i).mp hi
      have hieq : i = 1 := by omega
      subst hieq
      refine ⟨by simp [h1], ?_⟩
      rw [h1]
      simpa using hparse
    have hdata : starsGetData env false
        = (.ok ([] ++ (pageNumbers 1).flatMap (envPageRecords env)), 1 :: pageNumbers 1) := by
      unfold starsGetData
      simp only [Bool.false_eq_true, if_false, h1, numberOfPages, hlink]
      rw [starsPageLoop_all_ok env (pageNumbers 1) [] hok1]
    rw [hdata]
    constructor
    · rfl
    · have hone : pageNumbers 1 = [1] := rfl
      rw [hone]
      simp

/-- A concrete pagination environment: three pages, the first
reporting last-page 3 through its link header, every body parsing to
a single record. -/
def demoStarsEnv : StarsEnv :=
  { fetch := fun i =>
      if i = 1 then some { linkLast := some 3, body := "page one" }
      else if i = 2 then some { linkLast := none, body := "page two" }
      else if i = 3 then some { linkLast := none, body := "page three" }
      else none,
    parse := fun b => if b = "broken" then none else some [JSVal.str b] }

/-- Witness for the C3 theorem at the three-page environment. -/
theorem stars_pagination_fetch_counts_witness :
    (starsGetData demoStarsEnv false).2 = 1 :: pageNumbers 3 ∧
    (starsGetData demoStarsEnv false).2.length = 3 + 1 ∧
    (starsGetData demoStarsEnv false).2.count 1 = 2 ∧
    (∀ j, 2 ≤ j → j ≤ 3 → (starsGetData demoStarsEnv false).2.count j = 1) ∧
    (starsGetData demoStarsEnv false).1
      = .ok ((pageNumbers 3).flatMap (envPageRecords demoStarsEnv)) :=
  (stars_pagination_fetch_counts demoStarsEnv { linkLast := some 3, body := "page one" } 3
      rfl).1 rfl (by decide)
    (by
      intro i hi1 hi3
      interval_cases i <;> exact ⟨rfl, rfl⟩)

/-- Claim C8: during a non-sample paginated getData, a fetch failure
raises the user-facing fetch error and a page-body parse failure
raises the distinct user-facing parse error; a failure at any page of
the loop makes the whole call return that error, so no partially
accumulated records are ever returned. -/
theorem stars_pagination_failure_aborts (env : StarsEnv) (initialResponse : StarsPage)
    (N k : Nat)
    (h1 : env.fetch 1 = some initialResponse)
    (hlink : initialResponse.linkLast = some N)
    (hk1 : 1 ≤ k) (hkN : k ≤ N)
    (hgood : ∀ i, 1 ≤ i → i < k → (env.fetch i).isSome ∧
      ((env.fetch i).bind (fun page => env.parse page.body)).isSome) :
    (env.fetch k = none → (starsGetData env false).1 = .error fetchErrorMessage) ∧
    (∀ page, env.fetch k = some page → env.parse page.body = none →
      (starsGetData env false).1 = .error parseErrorMessage) ∧
    fetchErrorMessage ≠ parseErrorMessage ∧
    (∃ m, fetchErrorMessage = "DS_USER:" ++ m) ∧
    (∃ m, parseErrorMessage = "DS_USER:" ++ m) ∧
    (∀ e, (starsGetData env false).1 = .error e →
      ∀ records, (starsGetData env false).1 ≠ .ok records) := by
  have hsplit : List.range' 1 N = List.range' 1 (k - 1) ++ k :: List.range' (k + 1) (N - k) := by
    have heq1 : 1 + 1 * (k - 1) = k := by omega
    have heq2 : N - (k - 1) + (k - 1) = N := by omega
    have heq3 : N - (k - 1) = (N - k) + 1 := by omega
    have h := List.range'_append 1 (k - 1) (N - (k - 1)) 1
    rw [heq1] at h
    rw [heq2] at h
    rw [← h, heq3, List.range'_succ]
  have hgood2 : ∀ i ∈ List.range' 1 (k - 1), (env.fetch i).isSome ∧
      ((env.fetch i).bind (fun page => env.parse page.body)).isSome := by
    intro i hi
    obtain ⟨ha, hb⟩ := List.mem_range'_1.mp hi
    exact hgood i ha (by omega)
  have hfirst : (starsGetData env false).1
      = (starsPageLoop env (List.range' 1 (k - 1) ++ k :: List.range' (k + 1) (N - k)) []).1 := by
    unfold starsGetData
    simp only [Bool.false_eq_true, if_false, h1, numberOfPages, hlink]
    rw [pageNumbers_eq_range', hsplit]
  refine ⟨?_, ?_, by decide, ⟨"Unable to fetch data from source.", rfl⟩,
    ⟨"Unable to parse data fetched from source.", rfl⟩, ?_⟩
  · intro hk
    rw [hfirst]
    exact starsPageLoop_fetch_error env (List.range' 1 (k - 1)) k
      (List.range' (k + 1) (N - k)) [] hgood2 hk
  · intro page hk hp
    rw [hfirst]
    exact starsPageLoop_parse_error env (List.range' 1 (k - 1)) k
      (List.range' (k + 1) (N - k)) [] page hgood2 hk hp
  · intro e he records
    rw [he]
    intro hcontra
    exact Except.noConfusion hcontra

/-- A concrete pagination environment whose first page reports
last-page 2 but whose second page fails to fetch. -/
def failingStarsEnv : StarsEnv :=
  { fetch := fun i =>
      if i = 1 then some { linkLast := some 2, body := "page one" } else none,
    parse := fun b => if b = "broken" then none else some [JSVal.str b] }

/-- Witness for the C8 theorem at the failing environment: the fetch
failure on page 2 aborts the whole call with the user-facing fetch
error. -/
theorem stars_pagination_failure_aborts_witness :
    (failingStarsEnv.fetch 2 = none →
      (starsGetData failingStarsEnv false).1 = .error fetchErrorMessage) ∧
    (∀ page, failingStarsEnv.fetch 2 = some page → failingStarsEnv.parse page.body = none →
      (starsGetData failingStarsEnv false).1 = .error parseErrorMessage) ∧
    fetchErrorMessage ≠ parseErrorMessage ∧
    (∃ m, fetchErrorMessage = "DS_USER:" ++ m) ∧
    (∃ m, parseErrorMessage = "DS_USER:" ++ m) ∧
    (∀ e, (starsGetData failingStarsEnv false).1 = .error e →
      ∀ records, (starsGetData failingStarsEnv false).1 ≠ .ok records) :=
  stars_pagination_failure_aborts failingStarsEnv { linkLast := some 2, body := "page one" } 2 2
    rfl rfl (by decide) (by decide)
    (by
      intro i hi1 hi2
      have : i = 1 := by omega
      subst this
      exact ⟨rfl, rfl⟩)
